import Mathlib

/-!
Verification development for the `modelcards` repository (`modelcards/cards.py`).

The development shallowly embeds the card-parsing, serialization, validation and
publish logic of `RepoCard`.  Text is modelled as `List Char`.  The external YAML
engine (`yaml.safe_load` / the YAML rendering used by `CardData.to_yaml`) and the
`CardData` / `model_index_to_eval_results` collaborators (which live in
`card_data.py`, outside the sources at hand) are modelled from the specification:
YAML documents are an inductive `Yaml` value type, and the parser/serializer pair
is kept abstract (a function argument) wherever a claim only relies on the
round-trip property the specification postulates for it.
-/

namespace Modelcards

/-- A YAML value, as produced by the external YAML parser: `null`, a scalar
(kept abstract as its string rendering), a sequence, or a mapping. -/
inductive Yaml where
  | null : Yaml
  | str : String → Yaml
  | list : List Yaml → Yaml
  | map : List (String × Yaml) → Yaml

/-- Python truthiness of a YAML value (`None`, `""`, `[]`, `{}` are falsy),
used by `if model_index:` in `RepoCard.__init__`. -/
def yamlTruthy : Yaml → Bool
  | Yaml.null => false
  | Yaml.str s => s != ""
  | Yaml.list xs => !xs.isEmpty
  | Yaml.map kvs => !kvs.isEmpty

/-- First value bound to key `k` in an association list (Python `d[k]` /
`d.get(k)` on a dict rendered as an ordered association list). -/
def lookupKey (k : String) : List (String × Yaml) → Option Yaml
  | [] => none
  | (k', v) :: t => if k' = k then some v else lookupKey k t

/-- Remove every binding of key `k`. -/
def eraseAllKey (k : String) : List (String × Yaml) → List (String × Yaml)
  | [] => []
  | (k', v) :: t => if k' = k then eraseAllKey k t else (k', v) :: eraseAllKey k t

/-- Python `dict.pop(k, None)`: the removed value (if any) together with the
remaining bindings (first occurrence removed). -/
def popKey (k : String) : List (String × Yaml) → Option Yaml × List (String × Yaml)
  | [] => (none, [])
  | (k', v) :: t =>
    if k' = k then (some v, t)
    else
      let r := popKey k t
      (r.1, (k', v) :: r.2)

/-- `k` is not bound at all in the association list. -/
def keyFreeB (k : String) : List (String × Yaml) → Bool
  | [] => true
  | (k', _) :: t => k' != k && keyFreeB k t

/-! ### The regular expression `REGEX_YAML_BLOCK`

`cards.py` matches `re.compile(r"---[\n\r]+([\S\s]*?)[\n\r]+---[\n\r]([\S\s].*)", re.DOTALL)`
with `.search`.  We embed Python's backtracking semantics directly:

* `.search` tries each start offset from the left and keeps the first offset at
  which the whole pattern matches (`searchAux`).
* At a given offset the pattern reads a literal `---`, then `[\n\r]+` (greedy),
  then the lazy group 1 `[\S\s]*?`, then `[\n\r]+` (greedy), `---`, one `[\n\r]`
  and group 2 `[\S\s].*` (with DOTALL: the whole remainder, at least one char).
* The second `[\n\r]+` before a literal `-` forces the newline run to stop
  exactly at the end of the maximal run of newline characters (a shorter run
  would leave a newline where `-` is required), so `tailMatch` is deterministic.
* The first `[\n\r]+` is greedy: match with the maximal run `m` first, the lazy
  group 1 scanning left to right (`findGroup1`).  If that fails entirely, the
  engine backtracks to `n = m-1, …, 1` newlines.  For `n < m` the very first
  probe (empty group 1) tests the closing fence directly past the newline run,
  and every later probe repeats a probe that already failed for `n = m`; all
  those first probes coincide, so a single `tailMatch` at `m-1` suffices.
-/

/-- Membership in the character class `[\n\r]`. -/
def isNL (c : Char) : Bool := c == '\n' || c == '\r'

/-- Length of the maximal leading run of `[\n\r]` characters. -/
def nlRun : List Char → Nat
  | [] => 0
  | c :: t => if isNL c then nlRun t + 1 else 0

/-- Match the closing `---[\n\r]([\S\s].*)` at the current position: a literal
`---`, one newline character, and a non-empty remainder (group 2). -/
def checkFence : List Char → Option (List Char)
  | '-' :: '-' :: '-' :: c :: rest => if isNL c && !rest.isEmpty then some rest else none
  | _ => none

/-- Match `[\n\r]+---[\n\r]([\S\s].*)` at the current position: a non-empty
newline run (which, as argued above, must be maximal) followed by the closing
fence. -/
def tailMatch (s : List Char) : Option (List Char) :=
  if nlRun s = 0 then none else checkFence (s.drop (nlRun s))

/-- Lazy scan of group 1: at each position first try to match the tail of the
pattern (shortest group first), otherwise absorb one character into group 1. -/
def findGroup1 : List Char → Option (List Char × List Char)
  | [] => none
  | c :: t =>
    match tailMatch (c :: t) with
    | some rest => some ([], rest)
    | none =>
      match findGroup1 t with
      | some pr => some (c :: pr.1, pr.2)
      | none => none

/-- Match the whole pattern at the current offset.  `rest0` is the text after
the literal `---`; `m` is the greedy `[\n\r]+` run.  On total failure of the
lazy scan with `n = m`, the single remaining backtracking candidate is the
empty group 1 with `n = m - 1` (see the analysis above). -/
def matchHere : List Char → Option (List Char × List Char)
  | c1 :: c2 :: c3 :: rest0 =>
    if c1 = '-' ∧ c2 = '-' ∧ c3 = '-' then
      if nlRun rest0 = 0 then none
      else
        match findGroup1 (rest0.drop (nlRun rest0)) with
        | some pr => some pr
        | none =>
          if 2 ≤ nlRun rest0 then
            match tailMatch (rest0.drop (nlRun rest0 - 1)) with
            | some rest => some ([], rest)
            | none => none
          else none
    else none
  | _ => none

/-- Leftmost search, as `REGEX_YAML_BLOCK.search`: the first offset at which the
pattern matches, returning `(group 1, group 2)`. -/
def searchAux : List Char → Option (List Char × List Char)
  | [] => none
  | c :: t =>
    match matchHere (c :: t) with
    | some pr => some pr
    | none => searchAux t

/-- `REGEX_YAML_BLOCK.search(content)`, returning the two capture groups:
the YAML block and the body text. -/
def regexYamlBlockSearch (content : List Char) : Option (List Char × List Char) :=
  searchAux content

/-! ### `CardData` and the `model-index` decomposition

`CardData` and `model_index_to_eval_results` live in `card_data.py`, which is
not among the sources at hand; they are modelled from the specification
(sections 3, 4.2, 6, 8 of the spec). -/

/-- Modelled from the spec: `EvalResult` is "one evaluation record (task,
dataset, metric, value)" — task type, dataset identifiers, metric type and
metric value. -/
structure EvalResult where
  task_type : String
  dataset_type : String
  dataset_name : String
  metric_type : String
  metric_value : Yaml

/-- Modelled from the spec: decode one evaluation record of a `model-index`
`results` list; a missing required sub-key is a `KeyError` (`Except.error`). -/
def yamlToEvalResult (y : Yaml) : Except Unit EvalResult :=
  match y with
  | Yaml.map m =>
    match lookupKey "task_type" m, lookupKey "dataset_type" m,
        lookupKey "dataset_name" m, lookupKey "metric_type" m,
        lookupKey "metric_value" m with
    | some (Yaml.str a), some (Yaml.str b), some (Yaml.str c), some (Yaml.str d), some v =>
      Except.ok ⟨a, b, c, d, v⟩
    | _, _, _, _, _ => Except.error ()
  | _ => Except.error ()

/-- Modelled from the spec: re-encode one evaluation record into YAML. -/
def evalResultToYaml (r : EvalResult) : Yaml :=
  Yaml.map [("task_type", Yaml.str r.task_type), ("dataset_type", Yaml.str r.dataset_type),
    ("dataset_name", Yaml.str r.dataset_name), ("metric_type", Yaml.str r.metric_type),
    ("metric_value", r.metric_value)]

/-- Decode a `results` list, failing on the first malformed record. -/
def decodeResults : List Yaml → Except Unit (List EvalResult)
  | [] => Except.ok []
  | y :: t =>
    match yamlToEvalResult y with
    | Except.ok r =>
      match decodeResults t with
      | Except.ok rs => Except.ok (r :: rs)
      | Except.error e => Except.error e
    | Except.error e => Except.error e

/-- Modelled from the spec: `model_index_to_eval_results` decomposes a
`model-index` mapping `{name: …, results: […]}` into the model name and the
ordered list of evaluation records; a missing expected sub-key raises
`KeyError`, modelled as `Except.error`. -/
def model_index_to_eval_results (mi : Yaml) : Except Unit (String × List EvalResult) :=
  match mi with
  | Yaml.map m =>
    match lookupKey "name" m, lookupKey "results" m with
    | some (Yaml.str n), some (Yaml.list rs) =>
      match decodeResults rs with
      | Except.ok es => Except.ok (n, es)
      | Except.error e => Except.error e
    | _, _ => Except.error ()
  | _ => Except.error ()

/-- Modelled from the spec: re-encode a model name and evaluation results into
a `model-index` mapping (the inverse of `model_index_to_eval_results`). -/
def encodeModelIndex (name : String) (rs : List EvalResult) : Yaml :=
  Yaml.map [("name", Yaml.str name), ("results", Yaml.list (rs.map evalResultToYaml))]

/-- Modelled from the spec: `CardData` holds the recognized named fields
`model_name` and `eval_results`, plus the free-form extra metadata (keys not
recognized as named fields are retained unchanged). -/
structure CardData where
  model_name : Option String := none
  eval_results : Option (List EvalResult) := none
  extra : List (String × Yaml) := []

/-- Modelled from the spec: `CardData(**mapping)` — a string-valued
`model_name` key binds the named field (and leaves the free-form extras);
`model_name` is a name, hence string-typed, so a non-string value is not
representable in the field and is dropped; all other keys are retained as
free-form extra metadata.  `eval_results` is only ever populated by the
`model-index` decomposition. -/
def CardData.ofMap (m : List (String × Yaml)) : CardData :=
  match lookupKey "model_name" m with
  | some (Yaml.str s) =>
    { model_name := some s, eval_results := none, extra := eraseAllKey "model_name" m }
  | some _ =>
    { model_name := none, eval_results := none, extra := eraseAllKey "model_name" m }
  | none => { model_name := none, eval_results := none, extra := m }

/-- Modelled from the spec: the mapping rendered by `CardData.to_yaml` — when
evaluation results are present they are re-encoded as a `model-index` entry
(the decomposition "is one-way unless explicitly re-encoded", spec section 3);
otherwise a set `model_name` is rendered as a plain key; free-form extras
follow unchanged. -/
def CardData.toMap (d : CardData) : List (String × Yaml) :=
  match d.model_name, d.eval_results with
  | some n, some rs => ("model-index", encodeModelIndex n rs) :: d.extra
  | some n, none => ("model_name", Yaml.str n) :: d.extra
  | none, some rs => ("model-index", encodeModelIndex "" rs) :: d.extra
  | none, none => d.extra

/-- Modelled from the spec: `CardData.to_yaml()` renders the mapping with the
(abstract, external) YAML serializer `ser`. -/
def CardData.to_yaml (ser : List (String × Yaml) → List Char) (d : CardData) : List Char :=
  ser d.toMap

/-! ### `RepoCard` -/

/-- Warning-level log signals emitted by `RepoCard.__init__`
(`logger.warning` calls), made explicit per spec section 9. -/
inductive InitWarning where
  | metadataNotFound
  | invalidModelIndex
deriving DecidableEq

structure RepoCard where
  content : List Char
  text : List Char
  data : CardData

/-- The tail of `RepoCard.__init__` after the regex match: pop `model-index`
from the parsed mapping, decompose it when truthy (dropping it with a warning
on `KeyError`), and build the `CardData`. -/
def buildCardData (data_dict : List (String × Yaml)) : CardData × List InitWarning :=
  let pr := popKey "model-index" data_dict
  match pr.1 with
  | some v =>
    if yamlTruthy v then
      match model_index_to_eval_results v with
      | Except.ok nrs =>
        ({ CardData.ofMap pr.2 with model_name := some nrs.1, eval_results := some nrs.2 }, [])
      | Except.error _ => (CardData.ofMap pr.2, [InitWarning.invalidModelIndex])
    else (CardData.ofMap pr.2, [])
  | none => (CardData.ofMap pr.2, [])

/-- `RepoCard.__init__(content)`, parameterized by the external YAML parser
`p` (`yaml.safe_load`; `none` models a raised `YAMLError`).  Returns the card
together with the warning-level log signals, or the raised error. -/
def repoCardInit (p : List Char → Option Yaml) (content : List Char) :
    Except String (RepoCard × List InitWarning) :=
  match regexYamlBlockSearch content with
  | some gr =>
    match p gr.1 with
    | some (Yaml.map data_dict) =>
      let dw := buildCardData data_dict
      Except.ok ({ content := content, text := gr.2, data := dw.1 }, dw.2)
    | some _ => Except.error "repo card metadata block should be a dict"
    | none => Except.error "YAMLError"
  | none =>
    let dw := buildCardData []
    Except.ok ({ content := content, text := content, data := dw.1 },
      InitWarning.metadataNotFound :: dw.2)

/-- `RepoCard.__str__`: the f-string `---\n{self.data.to_yaml()}\n---\n{self.text}`. -/
def RepoCard.toStr (ser : List (String × Yaml) → List Char) (c : RepoCard) : List Char :=
  '-' :: '-' :: '-' :: '\n' ::
    (CardData.to_yaml ser c.data ++ '\n' :: '-' :: '-' :: '-' :: '\n' :: c.text)

/-! ### `validate` and `push_to_hub`

The network is an external collaborator: the POST to the validation endpoint is
a function `net` taking the `repoType` field and the serialized card and
returning the outcome (already folded through `raise_for_status` and the
HTTP-400 translation of `cards.py`).  The observable record keeps what was
sent, so "no network call was attempted" is `sent = none`. -/

/-- Outcome of `RepoCard.validate`: the result (an `Except.error` models a
raised exception) and the body handed to the validation endpoint (`none` when
the endpoint was never contacted). -/
structure ValidateResult where
  result : Except String Unit
  sent : Option (String × List Char)

/-- `RepoCard.validate(repo_type)`: normalize `None` to `"model"`, fail fast on
an unknown repo type (a `RuntimeError`, raised before any network call), then
POST the serialized card. -/
def RepoCard.validate (ser : List (String × Yaml) → List Char)
    (net : String → List Char → Except String Unit)
    (c : RepoCard) (repo_type : Option String) : ValidateResult :=
  let rt := match repo_type with | none => "model" | some r => r
  if rt ∈ (["model", "space", "dataset"] : List String) then
    { result := net rt (c.toStr ser), sent := some (rt, c.toStr ser) }
  else
    { result := Except.error
        "Provided repo_type '{repo_type}' should be one of ['model', 'space', 'dataset']."
      sent := none }

/-- Outcome of `RepoCard.push_to_hub`: the final card state (the method mutates
`self.data.model_name`), the overall result, whether the name-mismatch warning
was logged, the body handed to the validation endpoint, and the content handed
to the upload collaborator (`none` when `upload_file` was never invoked). -/
structure PushResult where
  card : RepoCard
  result : Except String Unit
  nameWarning : Bool
  validateSent : Option (String × List Char)
  uploaded : Option (List Char)

/-- Python `str.split(sep)` for a single separator character: split on every
occurrence, keeping empty segments; always returns at least one segment. -/
def splitOnChar (sep : Char) : List Char → List (List Char)
  | [] => [[]]
  | c :: t =>
    match splitOnChar sep t with
    | [] => [[]]
    | g :: gs => if c = sep then [] :: g :: gs else (c :: g) :: gs

/-- `repo_id.split("/")[-1]`. -/
def lastSegment (repo_id : String) : String :=
  String.mk ((splitOnChar '/' repo_id.data).getLastD [])

/-- The first half of `push_to_hub`: `if self.data.model_name and
self.data.model_name != repo_name` (Python truthiness: an empty-string
`model_name` is falsy and left alone) rewrite `model_name` to the repo
short-name; the Boolean records whether the mismatch warning was logged. -/
def renameCard (c : RepoCard) (repo_name : String) : RepoCard × Bool :=
  match c.data.model_name with
  | some n =>
    if n ≠ "" ∧ n ≠ repo_name then
      ({ c with data := { c.data with model_name := some repo_name } }, true)
    else (c, false)
  | none => (c, false)

/-- `RepoCard.push_to_hub(repo_id, …)`: rewrite a truthy, mismatching
`model_name` to the repo short-name (with a warning), validate, and only on
successful validation hand the serialized card to the upload collaborator. -/
def RepoCard.push_to_hub (ser : List (String × Yaml) → List Char)
    (net : String → List Char → Except String Unit)
    (upload : List Char → Except String Unit)
    (c : RepoCard) (repo_id : String) (repo_type : Option String) : PushResult :=
  match ((renameCard c (lastSegment repo_id)).1.validate ser net repo_type).result with
  | Except.error e =>
    { card := (renameCard c (lastSegment repo_id)).1, result := Except.error e,
      nameWarning := (renameCard c (lastSegment repo_id)).2,
      validateSent := ((renameCard c (lastSegment repo_id)).1.validate ser net repo_type).sent,
      uploaded := none }
  | Except.ok _ =>
    { card := (renameCard c (lastSegment repo_id)).1,
      result := upload ((renameCard c (lastSegment repo_id)).1.toStr ser),
      nameWarning := (renameCard c (lastSegment repo_id)).2,
      validateSent := ((renameCard c (lastSegment repo_id)).1.validate ser net repo_type).sent,
      uploaded := some ((renameCard c (lastSegment repo_id)).1.toStr ser) }

/-! ### Well-formedness of rendered YAML text, for the round-trip law

`fenceSafe Y` states precisely that the rendered YAML text `Y` cannot interfere
with the fence structure of `---\n{Y}\n---\n{text}`: at no position inside `Y`
does the closing-fence pattern `[\n\r]+---[\n\r]` fire — neither wholly inside
`Y` (an embedded fence line), nor straddling the boundary with the appended
`\n---\n` (a trailing newline run, which would merge with the appended newline,
or a trailing newline-run-plus-`---`, which the appended newline would close) —
and `Y` is non-empty and does not start with a newline character (so the
opening run is exactly the emitted `\n` and group 1 starts at `Y` itself).
Block-style YAML sequence renderings such as `tags:\n- a\n- b` are fence-safe:
a `- ` item line is not a `---` fence. -/

/-- The closing-fence pattern fires at this position of the rendered text,
given that the text is followed by `\n---\n` and a non-empty body: a non-empty
newline run that either reaches the end of the text, or is followed by `---`
which is in turn followed by a newline or by the end of the text. -/
def fenceAt (l : List Char) : Bool :=
  if nlRun l = 0 then false
  else if nlRun l = l.length then true
  else
    match l.drop (nlRun l) with
    | d1 :: d2 :: d3 :: rest =>
      if d1 = '-' ∧ d2 = '-' ∧ d3 = '-' then
        match rest with
        | [] => true
        | c :: _ => isNL c
      else false
    | _ => false

/-- The closing-fence pattern fires at no position of the rendered text. -/
def fenceFree : List Char → Bool
  | [] => true
  | c :: t => !fenceAt (c :: t) && fenceFree t

/-- The rendered YAML text is non-empty, does not start with a newline, and
contains no embedded or boundary-straddling closing fence. -/
def fenceSafe : List Char → Bool
  | [] => false
  | c :: t => !isNL c && fenceFree (c :: t)

/-! ## Association-list lemmas -/

theorem lookupKey_of_keyFree {k : String} {m : List (String × Yaml)}
    (h : keyFreeB k m = true) : lookupKey k m = none := by
  induction m with
  | nil => rfl
  | cons kv t ih =>
    simp only [keyFreeB, Bool.and_eq_true, bne_iff_ne] at h
    simp only [lookupKey, if_neg h.1, ih h.2]

theorem popKey_of_keyFree {k : String} {m : List (String × Yaml)}
    (h : keyFreeB k m = true) : popKey k m = (none, m) := by
  induction m with
  | nil => rfl
  | cons kv t ih =>
    simp only [keyFreeB, Bool.and_eq_true, bne_iff_ne] at h
    simp only [popKey, if_neg h.1, ih h.2]

theorem eraseAllKey_of_keyFree {k : String} {m : List (String × Yaml)}
    (h : keyFreeB k m = true) : eraseAllKey k m = m := by
  induction m with
  | nil => rfl
  | cons kv t ih =>
    simp only [keyFreeB, Bool.and_eq_true, bne_iff_ne] at h
    simp only [eraseAllKey, if_neg h.1, ih h.2]

theorem keyFree_of_lookupKey_none {k : String} {m : List (String × Yaml)}
    (h : lookupKey k m = none) : keyFreeB k m = true := by
  induction m with
  | nil => rfl
  | cons kv t ih =>
    by_cases hk : kv.1 = k
    · simp only [lookupKey, if_pos hk] at h
      exact absurd h (by simp)
    · simp only [lookupKey, if_neg hk] at h
      simp only [keyFreeB, Bool.and_eq_true, bne_iff_ne]
      exact ⟨hk, ih h⟩

theorem keyFree_eraseAllKey (k : String) (m : List (String × Yaml)) :
    keyFreeB k (eraseAllKey k m) = true := by
  induction m with
  | nil => rfl
  | cons kv t ih =>
    by_cases hk : kv.1 = k
    · simp only [eraseAllKey, if_pos hk, ih]
    · simp only [eraseAllKey, if_neg hk, keyFreeB, Bool.and_eq_true, bne_iff_ne]
      exact ⟨hk, ih⟩

/-! ## `CardData` invariants -/

theorem ofMap_eval_results_none (m : List (String × Yaml)) :
    (CardData.ofMap m).eval_results = none := by
  unfold CardData.ofMap
  split <;> rfl

theorem ofMap_model_name_free (m : List (String × Yaml)) :
    keyFreeB "model_name" (CardData.ofMap m).extra = true := by
  unfold CardData.ofMap
  split
  · exact keyFree_eraseAllKey _ _
  · exact keyFree_eraseAllKey _ _
  · next h => exact keyFree_of_lookupKey_none h

theorem buildCardData_model_name_free (m : List (String × Yaml)) :
    keyFreeB "model_name" (buildCardData m).1.extra = true := by
  simp only [buildCardData]
  split
  · split
    · split
      · exact ofMap_model_name_free _
      · exact ofMap_model_name_free _
    · exact ofMap_model_name_free _
  · exact ofMap_model_name_free _

theorem buildCardData_none_imp (m : List (String × Yaml))
    (h : (buildCardData m).1.model_name = none) :
    (buildCardData m).1.eval_results = none := by
  revert h
  simp only [buildCardData]
  cases hp : (popKey "model-index" m).1 with
  | none => intro h; exact ofMap_eval_results_none _
  | some v =>
    by_cases ht : yamlTruthy v = true
    · simp only [if_pos ht]
      cases hm : model_index_to_eval_results v with
      | ok nrs => intro h; exact Option.noConfusion h
      | error e => intro h; exact ofMap_eval_results_none _
    · simp only [if_neg ht]
      intro h; exact ofMap_eval_results_none _

theorem yamlToEvalResult_enc (r : EvalResult) :
    yamlToEvalResult (evalResultToYaml r) = Except.ok r := rfl

theorem decodeResults_enc (rs : List EvalResult) :
    decodeResults (rs.map evalResultToYaml) = Except.ok rs := by
  induction rs with
  | nil => rfl
  | cons r t ih => simp [List.map, decodeResults, yamlToEvalResult_enc, ih]

theorem decode_encodeModelIndex (n : String) (rs : List EvalResult) :
    model_index_to_eval_results (encodeModelIndex n rs) = Except.ok (n, rs) := by
  simp [model_index_to_eval_results, encodeModelIndex, lookupKey, decodeResults_enc]

theorem encodeModelIndex_truthy (n : String) (rs : List EvalResult) :
    yamlTruthy (encodeModelIndex n rs) = true := rfl

/-- Re-parsing the mapping rendered by `CardData.to_yaml` rebuilds the same
`CardData` (with no warnings), provided the extras do not themselves bind the
special keys and `eval_results` is only set together with `model_name` — all
invariants of cards built by `RepoCard.__init__`. -/
theorem buildCardData_toMap (d : CardData)
    (h1 : keyFreeB "model_name" d.extra = true)
    (h2 : keyFreeB "model-index" d.extra = true)
    (h3 : d.model_name = none → d.eval_results = none) :
    buildCardData d.toMap = (d, []) := by
  obtain ⟨mn, er, ex⟩ := d
  simp only at h1 h2 h3
  cases mn with
  | some n =>
    cases er with
    | some rs =>
      simp only [CardData.toMap, buildCardData, popKey]
      simp only [reduceIte]
      simp [encodeModelIndex_truthy, decode_encodeModelIndex, CardData.ofMap,
        lookupKey_of_keyFree h1]
    | none =>
      simp only [CardData.toMap, buildCardData, popKey]
      simp only [reduceIte, popKey_of_keyFree h2]
      simp [CardData.ofMap, lookupKey, eraseAllKey, eraseAllKey_of_keyFree h1]
  | none =>
    cases er with
    | some rs => exact Option.noConfusion (h3 rfl)
    | none =>
      simp only [CardData.toMap, buildCardData, popKey_of_keyFree h2]
      simp [CardData.ofMap, lookupKey_of_keyFree h1]

/-! ## Regex lemmas -/

theorem checkFence_ne_nil {s r : List Char} (h : checkFence s = some r) : r ≠ [] := by
  unfold checkFence at h
  split at h
  · next c rest =>
    by_cases hc : (isNL c && !rest.isEmpty) = true
    · rw [if_pos hc] at h
      cases h
      simp only [Bool.and_eq_true, Bool.not_eq_true'] at hc
      intro hnil
      subst hnil
      simp at hc
    · rw [if_neg hc] at h
      exact Option.noConfusion h
  · exact Option.noConfusion h

theorem tailMatch_ne_nil {s r : List Char} (h : tailMatch s = some r) : r ≠ [] := by
  unfold tailMatch at h
  split at h
  · exact Option.noConfusion h
  · exact checkFence_ne_nil h

theorem findGroup1_ne_nil {s : List Char} : ∀ pr : List Char × List Char,
    findGroup1 s = some pr → pr.2 ≠ [] := by
  induction s with
  | nil => intro pr h; exact Option.noConfusion h
  | cons c t ih =>
    intro pr h
    unfold findGroup1 at h
    split at h
    · next rest htm =>
      cases h
      exact tailMatch_ne_nil htm
    · split at h
      · next pr' hfg =>
        cases h
        exact ih pr' hfg
      · exact Option.noConfusion h

theorem matchHere_ne_nil {s : List Char} {pr : List Char × List Char}
    (h : matchHere s = some pr) : pr.2 ≠ [] := by
  unfold matchHere at h
  split at h
  · split at h
    · split at h
      · exact Option.noConfusion h
      · split at h
        · next hfg =>
          cases h
          exact findGroup1_ne_nil _ hfg
        · split at h
          · split at h
            · next rest htm =>
              cases h
              exact tailMatch_ne_nil htm
            · exact Option.noConfusion h
          · exact Option.noConfusion h
    · exact Option.noConfusion h
  · exact Option.noConfusion h

theorem search_ne_nil {s : List Char} {pr : List Char × List Char}
    (h : regexYamlBlockSearch s = some pr) : pr.2 ≠ [] := by
  unfold regexYamlBlockSearch at h
  induction s with
  | nil => exact Option.noConfusion h
  | cons c t ih =>
    unfold searchAux at h
    split at h
    · next hmh =>
      cases h
      exact matchHere_ne_nil hmh
    · exact ih h

theorem checkFence_cons_ne_dash {b : Char} (hb : b ≠ '-') (u : List Char) :
    checkFence (b :: u) = none := by
  unfold checkFence
  split
  · rename_i c rest heq
    injection heq with h1 _
    exact absurd h1 hb
  · rfl

theorem checkFence_second_ne_dash {b : Char} (hb : b ≠ '-') (a : Char) (u : List Char) :
    checkFence (a :: b :: u) = none := by
  unfold checkFence
  split
  · rename_i c rest heq
    injection heq with _ h2
    injection h2 with h3 _
    exact absurd h3 hb
  · rfl

theorem checkFence_third_ne_dash {d : Char} (hd : d ≠ '-') (a b : Char) (u : List Char) :
    checkFence (a :: b :: d :: u) = none := by
  unfold checkFence
  split
  · rename_i c rest heq
    injection heq with _ h2
    injection h2 with _ h3
    injection h3 with h4 _
    exact absurd h4 hd
  · rfl

theorem nlRun_le_length (l : List Char) : nlRun l ≤ l.length := by
  induction l with
  | nil => exact Nat.le_refl 0
  | cons c t ih =>
    by_cases hc : isNL c = true
    · simpa [nlRun, hc] using ih
    · simp [nlRun, hc]

theorem nlRun_append_of_lt : ∀ l : List Char, nlRun l < l.length → ∀ s : List Char,
    nlRun (l ++ s) = nlRun l := by
  intro l
  induction l with
  | nil => intro h; exact absurd h (by simp [nlRun])
  | cons c t ih =>
    intro h s
    by_cases hc : isNL c = true
    · have h' : nlRun t < t.length := by simpa [nlRun, hc] using h
      show nlRun (c :: (t ++ s)) = _
      simp [nlRun, hc, ih h' s]
    · show nlRun (c :: (t ++ s)) = _
      simp [nlRun, hc]

/-- At a fence-free position of the rendered text, the tail pattern
`[\n\r]+---[\n\r]([\S\s].*)` does not fire even with the serialized card's own
closing fence appended. -/
theorem tailMatch_append_none {l : List Char} (hne : l ≠ []) (hf : fenceAt l = false)
    (t : List Char) :
    tailMatch (l ++ '\n' :: '-' :: '-' :: '-' :: '\n' :: t) = none := by
  by_cases hr0 : nlRun l = 0
  · cases l with
    | nil => exact absurd rfl hne
    | cons c tl =>
      have hc : isNL c = false := by
        by_cases hcc : isNL c = true
        · exfalso; simp [nlRun, hcc] at hr0
        · simpa using hcc
      show tailMatch (c :: (tl ++ _)) = none
      simp [tailMatch, nlRun, hc]
  · have hlt : nlRun l < l.length := by
      rcases Nat.lt_or_ge (nlRun l) l.length with hx | hx
      · exact hx
      · exfalso
        have heq : nlRun l = l.length := Nat.le_antisymm (nlRun_le_length l) hx
        unfold fenceAt at hf
        rw [if_neg hr0, if_pos heq] at hf
        exact Bool.noConfusion hf
    have hrun : nlRun (l ++ ('\n' :: '-' :: '-' :: '-' :: '\n' :: t)) = nlRun l :=
      nlRun_append_of_lt l hlt _
    have hdrop : (l ++ ('\n' :: '-' :: '-' :: '-' :: '\n' :: t)).drop (nlRun l) =
        l.drop (nlRun l) ++ ('\n' :: '-' :: '-' :: '-' :: '\n' :: t) :=
      List.drop_append_of_le_length (Nat.le_of_lt hlt)
    unfold tailMatch
    rw [hrun, if_neg hr0, hdrop]
    unfold fenceAt at hf
    rw [if_neg hr0, if_neg (Nat.ne_of_lt hlt)] at hf
    cases hd : l.drop (nlRun l) with
    | nil =>
      rw [List.nil_append]
      exact checkFence_cons_ne_dash (by decide) _
    | cons d rest1 =>
      rw [hd] at hf
      rw [List.cons_append]
      by_cases h1 : d = '-'
      · subst h1
        cases rest1 with
        | nil => rfl
        | cons d2 rest2 =>
          by_cases h2 : d2 = '-'
          · subst h2
            cases rest2 with
            | nil => rfl
            | cons d3 rest3 =>
              by_cases h3 : d3 = '-'
              · subst h3
                dsimp only at hf
                rw [if_pos ⟨rfl, rfl, rfl⟩] at hf
                cases rest3 with
                | nil => exact Bool.noConfusion hf
                | cons c4 rest4 =>
                  dsimp only at hf
                  simp [checkFence, hf]
              · exact checkFence_third_ne_dash h3 _ _ _
          · exact checkFence_second_ne_dash h2 _ _
      · exact checkFence_cons_ne_dash h1 _

theorem fenceFree_head {c : Char} {t : List Char} (h : fenceFree (c :: t) = true) :
    fenceAt (c :: t) = false := by
  simp only [fenceFree, Bool.and_eq_true, Bool.not_eq_true'] at h
  exact h.1

theorem fenceFree_tail {c : Char} {t : List Char} (h : fenceFree (c :: t) = true) :
    fenceFree t = true := by
  simp only [fenceFree, Bool.and_eq_true] at h
  exact h.2

theorem findGroup1_roundtrip (t : List Char) (ht : t ≠ []) : ∀ Y : List Char,
    fenceFree Y = true →
    findGroup1 (Y ++ '\n' :: '-' :: '-' :: '-' :: '\n' :: t) = some (Y, t) := by
  intro Y
  induction Y with
  | nil =>
    intro _
    have htm : tailMatch ('\n' :: '-' :: '-' :: '-' :: '\n' :: t) = some t := by
      have : nlRun ('\n' :: '-' :: '-' :: '-' :: '\n' :: t) = 1 := by
        simp [nlRun, isNL]
      simp [tailMatch, this, checkFence, isNL, ht]
    simp [findGroup1, htm]
  | cons c Y' ih =>
    intro hOK
    have htm : tailMatch ((c :: Y') ++ '\n' :: '-' :: '-' :: '-' :: '\n' :: t) = none :=
      tailMatch_append_none (by simp) (fenceFree_head hOK) t
    rw [List.cons_append] at htm ⊢
    simp [findGroup1, htm, ih (fenceFree_tail hOK)]

theorem matchHere_roundtrip (Y t : List Char) (hY : fenceSafe Y = true) (ht : t ≠ []) :
    matchHere ('-' :: '-' :: '-' :: '\n' :: (Y ++ '\n' :: '-' :: '-' :: '-' :: '\n' :: t)) =
      some (Y, t) := by
  cases Y with
  | nil => exact Bool.noConfusion hY
  | cons c Y' =>
    simp only [fenceSafe, Bool.and_eq_true, Bool.not_eq_true'] at hY
    have hc : ¬c = '\n' ∧ ¬c = '\x0d' := by
      have h := hY.1
      simp [isNL] at h
      exact h
    have hm : nlRun ('\n' :: c :: (Y' ++ '\n' :: '-' :: '-' :: '-' :: '\n' :: t)) = 1 := by
      simp [nlRun, isNL, hc.1, hc.2]
    have hfg := findGroup1_roundtrip t ht (c :: Y') hY.2
    rw [List.cons_append] at hfg
    simp [matchHere, hm, hfg]

theorem search_roundtrip (Y t : List Char) (hY : fenceSafe Y = true) (ht : t ≠ []) :
    regexYamlBlockSearch ('-' :: '-' :: '-' :: '\n' ::
      (Y ++ '\n' :: '-' :: '-' :: '-' :: '\n' :: t)) = some (Y, t) := by
  unfold regexYamlBlockSearch searchAux
  rw [matchHere_roundtrip Y t hY ht]

/-! ## Composition lemmas for the round-trip law -/

theorem repoCardInit_ok_parts {p : List Char → Option Yaml} {T y b : List Char}
    {card : RepoCard} {ws : List InitWarning}
    (h1 : regexYamlBlockSearch T = some (y, b))
    (h2 : repoCardInit p T = Except.ok (card, ws)) :
    ∃ dd, p y = some (Yaml.map dd) ∧ card.text = b ∧ card.data = (buildCardData dd).1 := by
  unfold repoCardInit at h2
  rw [h1] at h2
  dsimp only at h2
  cases hp : p y with
  | none => rw [hp] at h2; exact Except.noConfusion h2
  | some yv =>
    rw [hp] at h2
    cases yv with
    | null => exact Except.noConfusion h2
    | str s => exact Except.noConfusion h2
    | list l => exact Except.noConfusion h2
    | map dd =>
      refine ⟨dd, rfl, ?_, ?_⟩ <;>
      · injection h2 with h3
        simp only [Prod.mk.injEq] at h3
        rw [← h3.1]

/-! ## Push helper lemmas -/

theorem renameCard_renames {c : RepoCard} {repo_name n : String}
    (h1 : c.data.model_name = some n) (h2 : n ≠ "") (h3 : n ≠ repo_name) :
    renameCard c repo_name =
      ({ c with data := { c.data with model_name := some repo_name } }, true) := by
  unfold renameCard
  rw [h1]
  dsimp only
  rw [if_pos ⟨h2, h3⟩]

theorem push_card_eq (ser : List (String × Yaml) → List Char)
    (net : String → List Char → Except String Unit)
    (upload : List Char → Except String Unit)
    (c : RepoCard) (repo_id : String) (rt : Option String) :
    (RepoCard.push_to_hub ser net upload c repo_id rt).card =
      (renameCard c (lastSegment repo_id)).1 := by
  unfold RepoCard.push_to_hub
  split <;> rfl

theorem push_warning_eq (ser : List (String × Yaml) → List Char)
    (net : String → List Char → Except String Unit)
    (upload : List Char → Except String Unit)
    (c : RepoCard) (repo_id : String) (rt : Option String) :
    (RepoCard.push_to_hub ser net upload c repo_id rt).nameWarning =
      (renameCard c (lastSegment repo_id)).2 := by
  unfold RepoCard.push_to_hub
  split <;> rfl

theorem push_sent_eq (ser : List (String × Yaml) → List Char)
    (net : String → List Char → Except String Unit)
    (upload : List Char → Except String Unit)
    (c : RepoCard) (repo_id : String) (rt : Option String) :
    (RepoCard.push_to_hub ser net upload c repo_id rt).validateSent =
      ((renameCard c (lastSegment repo_id)).1.validate ser net rt).sent := by
  unfold RepoCard.push_to_hub
  split <;> rfl

theorem push_result_of_validate_error {ser : List (String × Yaml) → List Char}
    {net : String → List Char → Except String Unit}
    {upload : List Char → Except String Unit}
    {c : RepoCard} {repo_id : String} {rt : Option String} {e : String}
    (h : ((RepoCard.push_to_hub ser net upload c repo_id rt).card.validate ser net rt).result =
      Except.error e) :
    (RepoCard.push_to_hub ser net upload c repo_id rt).result = Except.error e ∧
    (RepoCard.push_to_hub ser net upload c repo_id rt).uploaded = none := by
  rw [push_card_eq] at h
  revert h
  unfold RepoCard.push_to_hub
  split
  · next e' heq =>
    intro h
    rw [heq] at h
    injection h with h'
    rw [h']
    exact ⟨rfl, rfl⟩
  · next heq =>
    intro h
    rw [heq] at h
    exact Except.noConfusion h

/-! ## Claim theorems -/

/-- C1: for every input text `T` containing a valid YAML-fenced header (whose
YAML parses to a mapping, hence `repoCardInit` succeeds on the match branch)
followed by a body, constructing a `RepoCard` from `T` and serializing it with
`RepoCard.toStr` yields a document that parses back to an equivalent `CardData`
and to the identical body text.  The hypotheses on the external YAML engine are
exactly the spec's content-level caveat: re-parsing the rendered mapping gives
back the same mapping (`h3`), the rendering is fence-free well-formed text
(`h4`), and — since Python dictionaries cannot bind a key twice — the card's
free-form extras do not themselves bind `model-index` (`h5`). -/
theorem C1_serialization_roundtrip (p : List Char → Option Yaml)
    (ser : List (String × Yaml) → List Char) (T y b : List Char)
    (card : RepoCard) (ws : List InitWarning)
    (h1 : regexYamlBlockSearch T = some (y, b))
    (h2 : repoCardInit p T = Except.ok (card, ws))
    (h3 : p (ser card.data.toMap) = some (Yaml.map card.data.toMap))
    (h4 : fenceSafe (ser card.data.toMap) = true)
    (h5 : keyFreeB "model-index" card.data.extra = true) :
    ∃ card' ws', repoCardInit p (card.toStr ser) = Except.ok (card', ws') ∧
      card'.text = card.text ∧ card'.data = card.data := by
  obtain ⟨dd, hp, htext, hdata⟩ := repoCardInit_ok_parts h1 h2
  have hbne : b ≠ [] := search_ne_nil h1
  have htne : card.text ≠ [] := by rw [htext]; exact hbne
  have hsearch : regexYamlBlockSearch (card.toStr ser) =
      some (ser card.data.toMap, card.text) := by
    show regexYamlBlockSearch ('-' :: '-' :: '-' :: '\n' ::
      (ser card.data.toMap ++ '\n' :: '-' :: '-' :: '-' :: '\n' :: card.text)) = _
    exact search_roundtrip _ _ h4 htne
  have hmnfree : keyFreeB "model_name" card.data.extra = true := by
    rw [hdata]; exact buildCardData_model_name_free dd
  have hnone : card.data.model_name = none → card.data.eval_results = none := by
    rw [hdata]; exact buildCardData_none_imp dd
  have hbuild : buildCardData card.data.toMap = (card.data, []) :=
    buildCardData_toMap card.data hmnfree h5 hnone
  refine ⟨{ content := card.toStr ser, text := card.text, data := card.data }, [], ?_, rfl, rfl⟩
  unfold repoCardInit
  rw [hsearch]
  dsimp only
  rw [h3]
  dsimp only
  rw [hbuild]

/-- C1 witness: the round-trip law applied to the concrete card text
`---\ntags:\n- a\n- b\n---\nB` — a block-style YAML sequence rendering, whose
item lines begin with `- ` and are fence-safe — with a concrete YAML engine
for that single mapping. -/
theorem C1_serialization_roundtrip_witness :
    regexYamlBlockSearch ("---\ntags:\n- a\n- b\n---\nB".data) =
      some ("tags:\n- a\n- b".data, "B".data) ∧
    fenceSafe ("tags:\n- a\n- b".data) = true ∧
    repoCardInit (fun _ => some (Yaml.map [("tags", Yaml.list [Yaml.str "a", Yaml.str "b"])]))
      ("---\ntags:\n- a\n- b\n---\nB".data) =
      Except.ok
        ({ content := "---\ntags:\n- a\n- b\n---\nB".data, text := "B".data,
           data := { model_name := none, eval_results := none,
                     extra := [("tags", Yaml.list [Yaml.str "a", Yaml.str "b"])] } },
         []) ∧
    ∃ card' ws',
      repoCardInit (fun _ => some (Yaml.map [("tags", Yaml.list [Yaml.str "a", Yaml.str "b"])]))
        (RepoCard.toStr (fun _ => "tags:\n- a\n- b".data)
          { content := "---\ntags:\n- a\n- b\n---\nB".data, text := "B".data,
            data := { model_name := none, eval_results := none,
                      extra := [("tags", Yaml.list [Yaml.str "a", Yaml.str "b"])] } }) =
        Except.ok (card', ws') ∧
      card'.text = "B".data ∧
      card'.data = { model_name := none, eval_results := none,
                     extra := [("tags", Yaml.list [Yaml.str "a", Yaml.str "b"])] } :=
  ⟨rfl, rfl, rfl,
    C1_serialization_roundtrip
      (fun _ => some (Yaml.map [("tags", Yaml.list [Yaml.str "a", Yaml.str "b"])]))
      (fun _ => "tags:\n- a\n- b".data) ("---\ntags:\n- a\n- b\n---\nB".data)
      ("tags:\n- a\n- b".data) ("B".data)
      { content := "---\ntags:\n- a\n- b\n---\nB".data, text := "B".data,
        data := { model_name := none, eval_results := none,
                  extra := [("tags", Yaml.list [Yaml.str "a", Yaml.str "b"])] } }
      [] rfl rfl rfl rfl rfl⟩

/-- C2: `RepoCard.toStr` produces exactly `"---\n" + data.to_yaml() + "\n---\n"
+ text`, with the body text emitted verbatim and no escaping beyond whatever
the YAML serializer itself performed. -/
theorem C2_str_format (ser : List (String × Yaml) → List Char) (c : RepoCard) :
    String.mk (c.toStr ser) =
      "---\n" ++ String.mk (CardData.to_yaml ser c.data) ++ "\n---\n" ++ String.mk c.text := by
  apply String.ext
  show '-' :: '-' :: '-' :: '\n' ::
      (CardData.to_yaml ser c.data ++ '\n' :: '-' :: '-' :: '-' :: '\n' :: c.text) = _
  rw [String.data_append, String.data_append, String.data_append]
  rw [show ("---\n" : String).data = ['-', '-', '-', '\n'] from rfl,
    show ("\n---\n" : String).data = ['\n', '-', '-', '-', '\n'] from rfl]
  simp [List.append_assoc]

/-- C3: when the YAML-fenced header is present but its payload parses to a
non-mapping value, `RepoCard.__init__` raises
`ValueError("repo card metadata block should be a dict")` instead of
constructing a card. -/
theorem C3_nondict_metadata_raises (p : List Char → Option Yaml) (content y b : List Char)
    (v : Yaml)
    (h1 : regexYamlBlockSearch content = some (y, b))
    (h2 : p y = some v)
    (h3 : ∀ m, v ≠ Yaml.map m) :
    repoCardInit p content = Except.error "repo card metadata block should be a dict" := by
  unfold repoCardInit
  rw [h1]
  dsimp only
  rw [h2]
  cases v with
  | null => rfl
  | str s => rfl
  | list l => rfl
  | map m => exact absurd rfl (h3 m)

/-- C3 witness: a header whose YAML payload is the scalar `foo`. -/
theorem C3_nondict_metadata_raises_witness :
    regexYamlBlockSearch ("---\nfoo\n---\nbody".data) = some ("foo".data, "body".data) ∧
    repoCardInit (fun _ => some (Yaml.str "foo")) ("---\nfoo\n---\nbody".data) =
      Except.error "repo card metadata block should be a dict" :=
  ⟨rfl, C3_nondict_metadata_raises (fun _ => some (Yaml.str "foo"))
    ("---\nfoo\n---\nbody".data) ("foo".data) ("body".data) (Yaml.str "foo")
    rfl rfl (fun _ h => Yaml.noConfusion h)⟩

/-- C4: when the input contains no fenced YAML block, construction succeeds
with empty metadata, the entire input as body text, and the
metadata-not-found warning signal (no exception). -/
theorem C4_no_metadata_fallback (p : List Char → Option Yaml) (content : List Char)
    (h : regexYamlBlockSearch content = none) :
    repoCardInit p content = Except.ok
      ({ content := content, text := content,
         data := { model_name := none, eval_results := none, extra := [] } },
       [InitWarning.metadataNotFound]) := by
  unfold repoCardInit
  rw [h]
  rfl

/-- C4 witness: the fence-free input `hello`. -/
theorem C4_no_metadata_fallback_witness :
    regexYamlBlockSearch ("hello".data) = none ∧
    repoCardInit (fun _ => none) ("hello".data) = Except.ok
      ({ content := "hello".data, text := "hello".data,
         data := { model_name := none, eval_results := none, extra := [] } },
       [InitWarning.metadataNotFound]) :=
  ⟨rfl, C4_no_metadata_fallback (fun _ => none) ("hello".data) rfl⟩

/-- C5: when the parsed metadata mapping binds `model-index` (to a truthy
value, per `if model_index:`), a successful decomposition populates
`model_name` and `eval_results`; a failing decomposition (`KeyError`) still
lets construction succeed, logs the invalid-model-index warning, and leaves
the `CardData` without `eval_results` (the entry is dropped). -/
theorem C5_model_index_decomposition (p : List Char → Option Yaml)
    (content y b : List Char) (m rest : List (String × Yaml)) (v : Yaml)
    (h1 : regexYamlBlockSearch content = some (y, b))
    (h2 : p y = some (Yaml.map m))
    (h3 : popKey "model-index" m = (some v, rest))
    (h4 : yamlTruthy v = true) :
    (∀ n rs, model_index_to_eval_results v = Except.ok (n, rs) →
      repoCardInit p content = Except.ok
        ({ content := content, text := b,
           data := { CardData.ofMap rest with
                     model_name := some n, eval_results := some rs } },
         [])) ∧
    (∀ e, model_index_to_eval_results v = Except.error e →
      repoCardInit p content = Except.ok
        ({ content := content, text := b, data := CardData.ofMap rest },
         [InitWarning.invalidModelIndex]) ∧
      (CardData.ofMap rest).eval_results = none) := by
  have hinit : repoCardInit p content =
      Except.ok ({ content := content, text := b, data := (buildCardData m).1 },
        (buildCardData m).2) := by
    unfold repoCardInit
    rw [h1]
    dsimp only
    rw [h2]
  constructor
  · intro n rs hok
    rw [hinit]
    have hb : buildCardData m =
        ({ CardData.ofMap rest with model_name := some n, eval_results := some rs }, []) := by
      simp only [buildCardData]
      rw [h3]
      dsimp only
      rw [if_pos h4, hok]
    rw [hb]
  · intro e herr
    rw [hinit]
    have hb : buildCardData m = (CardData.ofMap rest, [InitWarning.invalidModelIndex]) := by
      simp only [buildCardData]
      rw [h3]
      dsimp only
      rw [if_pos h4, herr]
    rw [hb]
    exact ⟨rfl, ofMap_eval_results_none rest⟩

/-- C5 witness: a complete `model-index` mapping decomposes into `model_name =
"m"` and one evaluation record. -/
theorem C5_model_index_decomposition_witness :
    regexYamlBlockSearch ("---\nmi\n---\nB".data) = some ("mi".data, "B".data) ∧
    popKey "model-index"
      [("model-index", encodeModelIndex "m" [⟨"t", "dt", "dn", "mt", Yaml.null⟩])] =
      (some (encodeModelIndex "m" [⟨"t", "dt", "dn", "mt", Yaml.null⟩]), []) ∧
    yamlTruthy (encodeModelIndex "m" [⟨"t", "dt", "dn", "mt", Yaml.null⟩]) = true ∧
    model_index_to_eval_results (encodeModelIndex "m" [⟨"t", "dt", "dn", "mt", Yaml.null⟩]) =
      Except.ok ("m", [⟨"t", "dt", "dn", "mt", Yaml.null⟩]) ∧
    repoCardInit
      (fun _ => some (Yaml.map
        [("model-index", encodeModelIndex "m" [⟨"t", "dt", "dn", "mt", Yaml.null⟩])]))
      ("---\nmi\n---\nB".data) =
      Except.ok
        ({ content := "---\nmi\n---\nB".data, text := "B".data,
           data := { model_name := some "m",
                     eval_results := some [⟨"t", "dt", "dn", "mt", Yaml.null⟩],
                     extra := [] } },
         []) :=
  ⟨rfl, rfl, rfl, rfl,
    (C5_model_index_decomposition
      (fun _ => some (Yaml.map
        [("model-index", encodeModelIndex "m" [⟨"t", "dt", "dn", "mt", Yaml.null⟩])]))
      ("---\nmi\n---\nB".data) ("mi".data) ("B".data)
      [("model-index", encodeModelIndex "m" [⟨"t", "dt", "dn", "mt", Yaml.null⟩])] []
      (encodeModelIndex "m" [⟨"t", "dt", "dn", "mt", Yaml.null⟩])
      rfl rfl rfl rfl).1 "m" [⟨"t", "dt", "dn", "mt", Yaml.null⟩] rfl⟩

/-- C6: `validate` normalizes a `None` repo type to `"model"` (observable in
the request body it sends), and for any repo type outside
`{model, space, dataset}` it raises the `RuntimeError` with no network call
attempted (`sent = none`). -/
theorem C6_validate_repo_type (ser : List (String × Yaml) → List Char)
    (net : String → List Char → Except String Unit) (c : RepoCard) (rt : String)
    (h : rt ∉ (["model", "space", "dataset"] : List String)) :
    (RepoCard.validate ser net c none).sent = some ("model", c.toStr ser) ∧
    (RepoCard.validate ser net c (some rt)).result = Except.error
      "Provided repo_type '{repo_type}' should be one of ['model', 'space', 'dataset']." ∧
    (RepoCard.validate ser net c (some rt)).sent = none := by
  refine ⟨?_, ?_, ?_⟩
  · unfold RepoCard.validate
    dsimp only
    rw [if_pos (by decide : ("model" : String) ∈ (["model", "space", "dataset"] : List String))]
  · unfold RepoCard.validate
    dsimp only
    rw [if_neg h]
  · unfold RepoCard.validate
    dsimp only
    rw [if_neg h]

/-- C6 witness: the invalid repo type `bogus`. -/
theorem C6_validate_repo_type_witness :
    ("bogus" ∉ (["model", "space", "dataset"] : List String)) ∧
    ((RepoCard.validate (fun _ => []) (fun _ _ => Except.ok ())
        { content := [], text := [],
          data := { model_name := none, eval_results := none, extra := [] } }
        none).sent =
      some ("model",
        RepoCard.toStr (fun _ => [])
          { content := [], text := [],
            data := { model_name := none, eval_results := none, extra := [] } }) ∧
     (RepoCard.validate (fun _ => []) (fun _ _ => Except.ok ())
        { content := [], text := [],
          data := { model_name := none, eval_results := none, extra := [] } }
        (some "bogus")).result = Except.error
      "Provided repo_type '{repo_type}' should be one of ['model', 'space', 'dataset']." ∧
     (RepoCard.validate (fun _ => []) (fun _ _ => Except.ok ())
        { content := [], text := [],
          data := { model_name := none, eval_results := none, extra := [] } }
        (some "bogus")).sent = none) :=
  ⟨by decide,
    C6_validate_repo_type (fun _ => []) (fun _ _ => Except.ok ())
      { content := [], text := [],
        data := { model_name := none, eval_results := none, extra := [] } }
      "bogus" (by decide)⟩

/-- C7 counterexample: a card whose `model_name` is the empty string.  It is
set (`isSome`) and differs from the repo short-name `new`, yet `push_to_hub`
leaves it unchanged and logs no warning, because the Python guard
`if self.data.model_name and …` treats the empty string as falsy — contrary
to the claim, which predicts it is overwritten to `new`. -/
theorem C7_counterexample :
    ({ content := [], text := [],
       data := { model_name := some "", eval_results := none, extra := [] } } :
      RepoCard).data.model_name.isSome = true ∧
    ({ content := [], text := [],
       data := { model_name := some "", eval_results := none, extra := [] } } :
      RepoCard).data.model_name ≠ some (lastSegment "user/new") ∧
    (RepoCard.push_to_hub (fun _ => []) (fun _ _ => Except.ok ()) (fun _ => Except.ok ())
        { content := [], text := [],
          data := { model_name := some "", eval_results := none, extra := [] } }
        "user/new" none).card.data.model_name = some "" ∧
    (RepoCard.push_to_hub (fun _ => []) (fun _ _ => Except.ok ()) (fun _ => Except.ok ())
        { content := [], text := [],
          data := { model_name := some "", eval_results := none, extra := [] } }
        "user/new" none).nameWarning = false ∧
    (some "" : Option String) ≠ some (lastSegment "user/new") :=
  ⟨rfl, by decide, rfl, rfl, by decide⟩

/-- C7 (amended): if `model_name` is set to a non-empty string that differs
from the last path segment of `repo_id`, then `push_to_hub` overwrites it to
that segment (with a warning) before publishing; in particular `old` becomes
`new` when pushing to `user/new`. -/
theorem C7_push_renames_model_name (ser : List (String × Yaml) → List Char)
    (net : String → List Char → Except String Unit)
    (upload : List Char → Except String Unit)
    (c : RepoCard) (repo_id : String) (rt : Option String) (n : String)
    (h1 : c.data.model_name = some n) (h2 : n ≠ "") (h3 : n ≠ lastSegment repo_id) :
    (RepoCard.push_to_hub ser net upload c repo_id rt).card.data.model_name =
      some (lastSegment repo_id) ∧
    (RepoCard.push_to_hub ser net upload c repo_id rt).nameWarning = true := by
  rw [push_card_eq, push_warning_eq, renameCard_renames h1 h2 h3]
  exact ⟨rfl, rfl⟩

/-- C7 (amended) witness: `model_name = "old"`, `repo_id = "user/new"`. -/
theorem C7_push_renames_model_name_witness :
    ({ content := [], text := [],
       data := { model_name := some "old", eval_results := none, extra := [] } } :
      RepoCard).data.model_name = some "old" ∧
    ("old" : String) ≠ "" ∧
    ("old" : String) ≠ lastSegment "user/new" ∧
    ((RepoCard.push_to_hub (fun _ => []) (fun _ _ => Except.ok ()) (fun _ => Except.ok ())
        { content := [], text := [],
          data := { model_name := some "old", eval_results := none, extra := [] } }
        "user/new" none).card.data.model_name = some "new" ∧
     (RepoCard.push_to_hub (fun _ => []) (fun _ _ => Except.ok ()) (fun _ => Except.ok ())
        { content := [], text := [],
          data := { model_name := some "old", eval_results := none, extra := [] } }
        "user/new" none).nameWarning = true) :=
  ⟨rfl, by decide, by decide,
    C7_push_renames_model_name (fun _ => []) (fun _ _ => Except.ok ()) (fun _ => Except.ok ())
      { content := [], text := [],
        data := { model_name := some "old", eval_results := none, extra := [] } }
      "user/new" none "old" rfl (by decide) (by decide)⟩

/-- C8: in every execution of `push_to_hub`, validation happens before any
upload: when validation of the (possibly renamed) card raises, the upload
collaborator is never invoked (`uploaded = none`), the validation error
propagates as the result, and the validation request was the one sent. -/
theorem C8_validate_before_upload (ser : List (String × Yaml) → List Char)
    (net : String → List Char → Except String Unit)
    (upload : List Char → Except String Unit)
    (c : RepoCard) (repo_id : String) (rt : Option String) (e : String)
    (h : ((RepoCard.push_to_hub ser net upload c repo_id rt).card.validate ser net rt).result =
      Except.error e) :
    (RepoCard.push_to_hub ser net upload c repo_id rt).result = Except.error e ∧
    (RepoCard.push_to_hub ser net upload c repo_id rt).uploaded = none ∧
    (RepoCard.push_to_hub ser net upload c repo_id rt).validateSent =
      ((RepoCard.push_to_hub ser net upload c repo_id rt).card.validate ser net rt).sent := by
  have hbase := push_result_of_validate_error h
  refine ⟨hbase.1, hbase.2, ?_⟩
  rw [push_sent_eq, push_card_eq]

/-- C8 witness: a validation endpoint that always rejects with `bad`. -/
theorem C8_validate_before_upload_witness :
    (((RepoCard.push_to_hub (fun _ => []) (fun _ _ => Except.error "bad")
        (fun _ => Except.ok ())
        { content := [], text := [],
          data := { model_name := none, eval_results := none, extra := [] } }
        "user/x" none).card.validate (fun _ => []) (fun _ _ => Except.error "bad")
        none).result = Except.error "bad") ∧
    ((RepoCard.push_to_hub (fun _ => []) (fun _ _ => Except.error "bad")
        (fun _ => Except.ok ())
        { content := [], text := [],
          data := { model_name := none, eval_results := none, extra := [] } }
        "user/x" none).result = Except.error "bad" ∧
     (RepoCard.push_to_hub (fun _ => []) (fun _ _ => Except.error "bad")
        (fun _ => Except.ok ())
        { content := [], text := [],
          data := { model_name := none, eval_results := none, extra := [] } }
        "user/x" none).uploaded = none ∧
     (RepoCard.push_to_hub (fun _ => []) (fun _ _ => Except.error "bad")
        (fun _ => Except.ok ())
        { content := [], text := [],
          data := { model_name := none, eval_results := none, extra := [] } }
        "user/x" none).validateSent =
      ((RepoCard.push_to_hub (fun _ => []) (fun _ _ => Except.error "bad")
        (fun _ => Except.ok ())
        { content := [], text := [],
          data := { model_name := none, eval_results := none, extra := [] } }
        "user/x" none).card.validate (fun _ => []) (fun _ _ => Except.error "bad")
        none).sent) :=
  ⟨rfl,
    C8_validate_before_upload (fun _ => []) (fun _ _ => Except.error "bad")
      (fun _ => Except.ok ())
      { content := [], text := [],
        data := { model_name := none, eval_results := none, extra := [] } }
      "user/x" none "bad" rfl⟩

theorem matchHere_cons_ne_dash {c : Char} (hc : c ≠ '-') (t : List Char) :
    matchHere (c :: t) = none := by
  cases t with
  | nil => rfl
  | cons a u =>
    cases u with
    | nil => rfl
    | cons a2 u2 =>
      unfold matchHere
      dsimp only
      exact if_neg fun hh => hc hh.1

/-- C9: non-empty leading text before the first fence of a well-formed YAML
block is silently discarded: the regex search skips it (it is unanchored), so
the parsed metadata, the body text and the warnings are exactly those of the
input without the leading text — the leading text survives in neither, hence
re-serialization does not reproduce it. -/
theorem C9_leading_text_discarded (pre body y b : List Char)
    (hpre : pre ≠ []) (h2 : ∀ ch ∈ pre, ch ≠ '-')
    (h3 : regexYamlBlockSearch body = some (y, b)) :
    regexYamlBlockSearch (pre ++ body) = some (y, b) ∧
    ∀ p : List Char → Option Yaml,
      Except.map (fun pr : RepoCard × List InitWarning => (pr.1.text, pr.1.data, pr.2))
        (repoCardInit p (pre ++ body)) =
      Except.map (fun pr : RepoCard × List InitWarning => (pr.1.text, pr.1.data, pr.2))
        (repoCardInit p body) := by
  have hs : regexYamlBlockSearch (pre ++ body) = regexYamlBlockSearch body := by
    clear hpre h3
    induction pre with
    | nil => rfl
    | cons c t ih =>
      have hc : c ≠ '-' := h2 c (by simp)
      show searchAux (c :: (t ++ body)) = _
      unfold searchAux
      rw [matchHere_cons_ne_dash hc]
      exact ih fun ch hch => h2 ch (by simp [hch])
  refine ⟨hs.trans h3, ?_⟩
  intro p
  unfold repoCardInit
  rw [hs.trans h3, h3]
  dsimp only
  cases hp : p y with
  | none => rfl
  | some yv => cases yv <;> rfl

/-- C9 witness: the prefix `intro ` before a fenced document. -/
theorem C9_leading_text_discarded_witness :
    ("intro ".data ≠ []) ∧
    regexYamlBlockSearch ("---\nk: v\n---\nB".data) = some ("k: v".data, "B".data) ∧
    (regexYamlBlockSearch ("intro ".data ++ "---\nk: v\n---\nB".data) =
      some ("k: v".data, "B".data) ∧
     ∀ p : List Char → Option Yaml,
      Except.map (fun pr : RepoCard × List InitWarning => (pr.1.text, pr.1.data, pr.2))
        (repoCardInit p ("intro ".data ++ "---\nk: v\n---\nB".data)) =
      Except.map (fun pr : RepoCard × List InitWarning => (pr.1.text, pr.1.data, pr.2))
        (repoCardInit p ("---\nk: v\n---\nB".data))) :=
  ⟨by decide, rfl,
    C9_leading_text_discarded ("intro ".data) ("---\nk: v\n---\nB".data)
      ("k: v".data) ("B".data) (by decide) (by decide) rfl⟩

/-- C10: `push_to_hub` rewrites `model_name` before validating; when
validation of the renamed card then raises, the error propagates but the card
is left in the mutated state — the rename is not rolled back. -/
theorem C10_rename_not_rolled_back (ser : List (String × Yaml) → List Char)
    (net : String → List Char → Except String Unit)
    (upload : List Char → Except String Unit)
    (c : RepoCard) (repo_id : String) (rt : Option String) (n e : String)
    (h1 : c.data.model_name = some n) (h2 : n ≠ "") (h3 : n ≠ lastSegment repo_id)
    (h4 : ((RepoCard.push_to_hub ser net upload c repo_id rt).card.validate ser net rt).result =
      Except.error e) :
    (RepoCard.push_to_hub ser net upload c repo_id rt).result = Except.error e ∧
    (RepoCard.push_to_hub ser net upload c repo_id rt).card.data.model_name =
      some (lastSegment repo_id) := by
  refine ⟨(push_result_of_validate_error h4).1, ?_⟩
  rw [push_card_eq, renameCard_renames h1 h2 h3]

/-- C10 witness: `model_name = "old"`, `repo_id = "user/new"`, validation
always rejecting with `bad`: the push fails but the card keeps `new`. -/
theorem C10_rename_not_rolled_back_witness :
    ({ content := [], text := [],
       data := { model_name := some "old", eval_results := none, extra := [] } } :
      RepoCard).data.model_name = some "old" ∧
    (((RepoCard.push_to_hub (fun _ => []) (fun _ _ => Except.error "bad")
        (fun _ => Except.ok ())
        { content := [], text := [],
          data := { model_name := some "old", eval_results := none, extra := [] } }
        "user/new" none).card.validate (fun _ => []) (fun _ _ => Except.error "bad")
        none).result = Except.error "bad") ∧
    ((RepoCard.push_to_hub (fun _ => []) (fun _ _ => Except.error "bad")
        (fun _ => Except.ok ())
        { content := [], text := [],
          data := { model_name := some "old", eval_results := none, extra := [] } }
        "user/new" none).result = Except.error "bad" ∧
     (RepoCard.push_to_hub (fun _ => []) (fun _ _ => Except.error "bad")
        (fun _ => Except.ok ())
        { content := [], text := [],
          data := { model_name := some "old", eval_results := none, extra := [] } }
        "user/new" none).card.data.model_name = some "new") :=
  ⟨rfl, rfl,
    C10_rename_not_rolled_back (fun _ => []) (fun _ _ => Except.error "bad")
      (fun _ => Except.ok ())
      { content := [], text := [],
        data := { model_name := some "old", eval_results := none, extra := [] } }
      "user/new" none "old" "bad" rfl (by decide) (by decide) rfl⟩

end Modelcards
